import Mathlib

/-!
A shallow embedding of the core of the `tailwindsql` repository
(`src/parser.rs`, `src/query_builder.rs`, `src/render.rs`) together with
theorems settling the specification claims about it.

Rust strings are modelled as Lean `String` (both are sequences of Unicode
scalar values); Rust `i64` is modelled as `Int` with the explicit range
check where the source performs a fallible parse; fallible Rust functions
returning `Result<_, QueryBuilderError>` are modelled with
`Except String _`, the error payload being the offending identifier
carried by `QueryBuilderError::InvalidIdentifier`.
-/

/-! ## Embedding of `src/parser.rs` -/

inductive JoinType where
  | inner
  | left
  | right
deriving DecidableEq

def JoinType.as_sql : JoinType → String
  | .inner => "INNER"
  | .left => "LEFT"
  | .right => "RIGHT"

structure JoinConfig where
  table : String
  parent_column : String
  child_column : String
  columns : List String
  join_type : JoinType
deriving DecidableEq

inductive OrderDirection where
  | asc
  | desc
deriving DecidableEq

def OrderDirection.as_sql : OrderDirection → String
  | .asc => "ASC"
  | .desc => "DESC"

structure OrderBy where
  field : String
  direction : OrderDirection
deriving DecidableEq

structure QueryConfig where
  table : String
  columns : List String
  where_clauses : List (String × String)
  limit : Option Int
  order_by : Option OrderBy
  joins : List JoinConfig
deriving DecidableEq

inductive ParserState where
  | column
  | whereField
  | whereValue
  | limit
  | orderByField
  | orderByDir
deriving DecidableEq

/-- Model of Rust `str::parse::<i64>`: an optional single leading sign
followed by at least one ASCII digit, every character a digit, and the
resulting value within the `i64` range; anything else fails. -/
def parseI64 (s : String) : Option Int :=
  let (sign, digits) : Int × List Char :=
    match s.data with
    | '+' :: rest => (1, rest)
    | '-' :: rest => (-1, rest)
    | l => (1, l)
  if digits.isEmpty then none
  else if ¬ digits.all Char.isDigit then none
  else
    let n : Nat := digits.foldl (fun acc c => acc * 10 + (c.toNat - 48)) 0
    let v : Int := sign * (n : Int)
    if -(2 ^ 63) ≤ v ∧ v < 2 ^ 63 then some v else none

/-- One iteration of the token loop of `parse_class_name`
(`src/parser.rs` lines 96-156): the accumulator is the triple of the
config built so far, the machine state, and `current_where_field`. -/
def parseStep : QueryConfig × ParserState × String → String → QueryConfig × ParserState × String
  | (config, state, current_where_field), part =>
    if part = "where" then (config, .whereField, current_where_field)
    else if part = "limit" then (config, .limit, current_where_field)
    else if part = "orderby" then (config, .orderByField, current_where_field)
    else
      match state with
      | .column =>
          -- the keyword guard here is the source's redundant `matches!` check
          if part ≠ "where" ∧ part ≠ "limit" ∧ part ≠ "orderby" then
            ({ config with columns := config.columns ++ [part] }, .column, current_where_field)
          else
            (config, .column, current_where_field)
      | .whereField => (config, .whereValue, part)
      | .whereValue =>
          ({ config with where_clauses := config.where_clauses ++ [(current_where_field, part)] },
            .whereField, current_where_field)
      | .limit =>
          (match parseI64 part with
           | some n => { config with limit := some n }
           | none => config,
           .column, current_where_field)
      | .orderByField =>
          ({ config with order_by := some ⟨part, OrderDirection.asc⟩ }, .orderByDir, current_where_field)
      | .orderByDir =>
          (match config.order_by with
           | some ob =>
               if part = "asc" then { config with order_by := some { ob with direction := OrderDirection.asc } }
               else if part = "desc" then { config with order_by := some { ob with direction := OrderDirection.desc } }
               else config
           | none => config,
           .column, current_where_field)

/-- Model of Rust `str::starts_with` on the character sequence. -/
def rustStartsWith (s p : String) : Bool :=
  p.data.isPrefixOf s.data

/-- Model of Rust `str::trim`: drop whitespace from both ends.
(`Char.isWhitespace` covers the ASCII whitespace this program meets.) -/
def rustTrim (s : String) : String :=
  ⟨((s.data.dropWhile Char.isWhitespace).reverse.dropWhile Char.isWhitespace).reverse⟩

/-- Model of Rust `str::split('-')` on the character sequence: every
occurrence of `'-'` separates fields, and leading/trailing/adjacent
separators yield empty fields. -/
def splitOnHyphen : List Char → List (List Char)
  | [] => [[]]
  | c :: rest =>
    if c = '-' then [] :: splitOnHyphen rest
    else
      match splitOnHyphen rest with
      | s :: ss => (c :: s) :: ss
      | [] => [[c]]

def rustSplitHyphen (s : String) : List String :=
  (splitOnHyphen s.data).map (fun cs => ⟨cs⟩)

/-- `parse_class_name` (`src/parser.rs` lines 73-159).  The source calls
`class_name.trim().strip_prefix("db-")`; since the string is already known
to start with `"db-"` (a non-whitespace character first), `trim` removes
only trailing whitespace and the prefix removal cannot fail, so stripping
is modelled by dropping the three prefix characters of the trimmed
string. -/
def parse_class_name (class_name : String) : Option QueryConfig :=
  if ¬ rustStartsWith class_name "db-" then none
  else
    let parts := rustSplitHyphen ⟨(rustTrim class_name).data.drop 3⟩
    match parts with
    | [] => none
    | table :: rest =>
        if table = "" then none
        else
          let init : QueryConfig := ⟨table, [], [], none, none, []⟩
          some (rest.foldl parseStep (init, ParserState.column, "")).1

/-! ## Embedding of `src/query_builder.rs` -/

/-- The two `rusqlite::types::Value` constructors `build_query` produces. -/
inductive SqlValue where
  | text (s : String)
  | integer (n : Int)
deriving DecidableEq

structure BuiltQuery where
  sql : String
  params : List SqlValue
deriving DecidableEq

/-- `is_safe_identifier` (`src/query_builder.rs` lines 19-33).
`Char.isAlpha`, `Char.isAlphanum`, `Char.isDigit` are ASCII-only in Lean,
matching `is_ascii_alphabetic` / `is_ascii_alphanumeric`. -/
def is_safe_identifier (name : String) : Bool :=
  match name.data with
  | [] => false
  | first :: rest =>
      (first.isAlpha || first == '_') && rest.all (fun ch => ch.isAlphanum || ch == '_')

/-- `sanitize_identifier` (`src/query_builder.rs` lines 35-40). -/
def sanitize_identifier (name : String) : Except String String :=
  if ¬ is_safe_identifier name then Except.error name else Except.ok name

/-- A fallible `for` loop collecting results, stopping at the first error
(the shape of every loop in `build_query`). -/
def mapExcept (f : α → Except ε β) : List α → Except ε (List β)
  | [] => Except.ok []
  | a :: as =>
    match f a with
    | Except.error e => Except.error e
    | Except.ok b =>
      match mapExcept f as with
      | Except.error e => Except.error e
      | Except.ok bs => Except.ok (b :: bs)

/-- The select-column loop over `config.columns` and its empty-list
defaults (`src/query_builder.rs` lines 53-67). -/
def primary_select_columns (table : String) (has_joins : Bool) (columns : List String) :
    Except String (List String) :=
  if !columns.isEmpty then
    mapExcept (fun column =>
      match sanitize_identifier column with
      | Except.error e => Except.error e
      | Except.ok col => Except.ok (if has_joins then table ++ "." ++ col else col)) columns
  else if has_joins then Except.ok [table ++ ".*"]
  else Except.ok ["*"]

/-- The body of the select-column loop over `config.joins`
(`src/query_builder.rs` lines 69-79). -/
def join_select_columns (join : JoinConfig) : Except String (List String) :=
  match sanitize_identifier join.table with
  | Except.error e => Except.error e
  | Except.ok join_table =>
    if join.columns.isEmpty then Except.ok [join_table ++ ".*"]
    else mapExcept (fun column =>
      match sanitize_identifier column with
      | Except.error e => Except.error e
      | Except.ok col => Except.ok (join_table ++ "." ++ col)) join.columns

/-- The body of the `JOIN`-clause loop (`src/query_builder.rs` lines
83-95). -/
def join_clause (table : String) (join : JoinConfig) : Except String String :=
  match sanitize_identifier join.table with
  | Except.error e => Except.error e
  | Except.ok join_table =>
    match sanitize_identifier join.parent_column with
    | Except.error e => Except.error e
    | Except.ok parent_col =>
      match sanitize_identifier join.child_column with
      | Except.error e => Except.error e
      | Except.ok child_col =>
          Except.ok (" " ++ join.join_type.as_sql ++ " JOIN " ++ join_table
            ++ " ON " ++ table ++ "." ++ parent_col ++ " = " ++ join_table ++ "." ++ child_col)

/-- The condition-building loop over `config.where_clauses`
(`src/query_builder.rs` lines 97-106). -/
def where_conditions (table : String) (has_joins : Bool) (where_clauses : List (String × String)) :
    Except String (List String) :=
  mapExcept (fun fv =>
    match sanitize_identifier fv.1 with
    | Except.error e => Except.error e
    | Except.ok field =>
        Except.ok ((if has_joins then table ++ "." ++ field else field) ++ " = ?")) where_clauses

/-- The `ORDER BY` fragment (`src/query_builder.rs` lines 112-125),
applied to the SQL accumulated so far. -/
def order_by_sql (table : String) (has_joins : Bool) (sql : String) :
    Option OrderBy → Except String String
  | none => Except.ok sql
  | some order_by =>
    match sanitize_identifier order_by.field with
    | Except.error e => Except.error e
    | Except.ok field =>
        Except.ok (sql ++ " ORDER BY "
          ++ (if has_joins then table ++ "." ++ field else field)
          ++ " " ++ order_by.direction.as_sql)

/-- `build_query` (`src/query_builder.rs` lines 46-133), with each source
loop rendered as a `mapExcept` of the helper above and the mutable
`sql` / `params` accumulation rendered as concatenation. -/
def build_query (config : QueryConfig) : Except String BuiltQuery :=
  match sanitize_identifier config.table with
  | Except.error e => Except.error e
  | Except.ok table =>
    let has_joins := !config.joins.isEmpty
    match primary_select_columns table has_joins config.columns with
    | Except.error e => Except.error e
    | Except.ok primary_columns =>
      match mapExcept join_select_columns config.joins with
      | Except.error e => Except.error e
      | Except.ok join_column_groups =>
        let select_columns := primary_columns ++ join_column_groups.flatten
        let columns_sql := String.intercalate ", " select_columns
        let sql_select := "SELECT " ++ columns_sql ++ " FROM " ++ table
        match mapExcept (join_clause table) config.joins with
        | Except.error e => Except.error e
        | Except.ok join_clauses =>
          let sql_joined := sql_select ++ String.join join_clauses
          match (if config.where_clauses.isEmpty then Except.ok sql_joined
                 else
                   match where_conditions table has_joins config.where_clauses with
                   | Except.error e => Except.error e
                   | Except.ok conditions =>
                       Except.ok (sql_joined ++ " WHERE " ++ String.intercalate " AND " conditions)) with
          | Except.error e => Except.error e
          | Except.ok sql_where =>
            let where_params := config.where_clauses.map (fun fv => SqlValue.text fv.2)
            match order_by_sql table has_joins sql_where config.order_by with
            | Except.error e => Except.error e
            | Except.ok sql_ordered =>
              match config.limit with
              | some limit =>
                  Except.ok ⟨sql_ordered ++ " LIMIT ?", where_params ++ [SqlValue.integer limit]⟩
              | none => Except.ok ⟨sql_ordered, where_params⟩

/-! ## Embedding of `src/render.rs`

Row values (`serde_json::Value`) are modelled by the scalar fragment
`JValue`; the only producer of row values in this program,
`sqlite_value_to_json` in `src/main.rs`, yields `Null`, `Number` or
`String` (floating-point `Real` columns are out of scope of this
embedding, so numbers are modelled as integers).  `RowData`
(`BTreeMap<String, Value>`) is modelled as an association list whose
order stands for the map's sorted key order. -/

inductive JValue where
  | null
  | bool (b : Bool)
  | num (n : Int)
  | str (s : String)
deriving DecidableEq

abbrev RowData := List (String × JValue)

inductive RenderAs where
  | span
  | div
  | ul
  | ol
  | table
  | json
  | code
deriving DecidableEq

def RenderAs.parse (value : String) : RenderAs :=
  if value = "div" then .div
  else if value = "ul" then .ul
  else if value = "ol" then .ol
  else if value = "table" then .table
  else if value = "json" then .json
  else if value = "code" then .code
  else .span

/-- The per-character substitution performed by `escape_html`. -/
def escape_html_char (c : Char) : String :=
  if c = '&' then "&amp;"
  else if c = '<' then "&lt;"
  else if c = '>' then "&gt;"
  else if c = '\x22' then "&quot;"
  else if c = '\x27' then "&#x27;"
  else String.singleton c

/-- `escape_html` (`src/render.rs` lines 207-214): the source chains five
full-string `replace` passes (`&` first, then `<`, `>`, `\x22`, `\x27`).
No replacement string contains a character that a later pass replaces
(`&amp;` has no `<`/`>`/quote, `&lt;` no `>`/quote, and so on), so the
chained passes substitute each character of the original input exactly
once, independently — which is the per-character map below. -/
def escape_html (input : String) : String :=
  String.join (input.data.map escape_html_char)

/-- `format_value` (`src/render.rs` lines 197-204) on the scalar fragment. -/
def format_value : Option JValue → String
  | none => ""
  | some .null => ""
  | some (.bool b) => if b then "true" else "false"
  | some (.num n) => toString n
  | some (.str s) => escape_html s

/-- Model of `serde_json`'s string-literal escaping (used by
`to_string` / `to_string_pretty`). -/
def jsonEscapeChar (c : Char) : String :=
  if c = '\x22' then "\\\x22"
  else if c = '\\' then "\\\\"
  else if c = '\x08' then "\\b"
  else if c = '\x0c' then "\\f"
  else if c = '\n' then "\\n"
  else if c = '\r' then "\\r"
  else if c = '\t' then "\\t"
  else if c.toNat < 32 then
    "\\u00" ++ String.singleton (Nat.digitChar (c.toNat / 16)) ++ String.singleton (Nat.digitChar (c.toNat % 16))
  else String.singleton c

def jsonString (s : String) : String :=
  "\x22" ++ String.join (s.data.map jsonEscapeChar) ++ "\x22"

/-- Compact `serde_json` serialization of a scalar value
(`Value::to_string`). -/
def jsonCompact : JValue → String
  | .null => "null"
  | .bool b => if b then "true" else "false"
  | .num n => toString n
  | .str s => jsonString s

/-- Model of `serde_json::to_string_pretty` at type `Vec<String>`
(two-space indentation), as called in `render_single_column`. -/
def prettyStringArray (values : List String) : String :=
  if values.isEmpty then "[]"
  else "[\n  " ++ String.intercalate ",\n  " (values.map jsonString) ++ "\n]"

/-- Model of `serde_json::to_string` at type `RowData`, as called in
`render_row_list`. -/
def compactRow (row : RowData) : String :=
  "\x7b" ++ String.intercalate "," (row.map (fun kv => jsonString kv.1 ++ ":" ++ jsonCompact kv.2)) ++ "\x7d"

/-- One object of a pretty-printed row array: braces at indent 2, keys at
indent 4 (the shapes `serde_json::to_string_pretty` produces inside
`render_json_block`). -/
def prettyRowAt (row : RowData) : String :=
  if row.isEmpty then "\x7b\x7d"
  else
    "\x7b\n"
      ++ String.intercalate ",\n"
          (row.map (fun kv => "    " ++ jsonString kv.1 ++ ": " ++ jsonCompact kv.2))
      ++ "\n  \x7d"

/-- Model of `serde_json::to_string_pretty` at type `Vec<RowData>`. -/
def prettyRows (results : List RowData) : String :=
  if results.isEmpty then "[]"
  else "[\n  " ++ String.intercalate ",\n  " (results.map prettyRowAt) ++ "\n]"

/-- `BTreeMap::get` on the association-list model. -/
def rowGet (row : RowData) (column : String) : Option JValue :=
  (row.find? (fun kv => kv.1 = column)).map (fun kv => kv.2)

/-- `columns_from_results` (`src/render.rs` lines 66-71). -/
def columns_from_results (results : List RowData) : List String :=
  match results.head? with
  | some row => row.map (fun kv => kv.1)
  | none => []

/-- `render_single_value` (`src/render.rs` lines 73-76). -/
def render_single_value (results : List RowData) (column : String) : String :=
  let value := rowGet (results.headD []) column
  "<span>" ++ format_value value ++ "</span>"

/-- `render_list` (`src/render.rs` lines 161-174). -/
def render_list (tag : String) (class_name : String) (items : List String) : String :=
  "<" ++ tag ++ " class=\"" ++ class_name ++ "\">"
    ++ String.join (items.map (fun item => "<li>" ++ item ++ "</li>"))
    ++ "</" ++ tag ++ ">"

/-- `render_single_column` (`src/render.rs` lines 78-96). -/
def render_single_column (results : List RowData) (column : String) (render_as : RenderAs) : String :=
  let values := results.map (fun row => format_value (rowGet row column))
  match render_as with
  | .ul => render_list "ul" "list-disc list-inside" values
  | .ol => render_list "ol" "list-decimal list-inside" values
  | .json | .code =>
      let json := prettyStringArray values
      "<code class=\"font-mono text-xs sm:text-sm bg-black/40 text-green-400 p-2 sm:p-3 rounded block overflow-x-auto\">"
        ++ escape_html json ++ "</code>"
  | _ => "<span>" ++ String.intercalate ", " values ++ "</span>"

/-- `render_table` (`src/render.rs` lines 98-144). -/
def render_table (results : List RowData) (columns : List String) : String :=
  let headers := if columns.isEmpty then columns_from_results results else columns
  "<div class=\"overflow-x-auto -mx-2 sm:mx-0\"><table class=\"border-collapse border border-white/10 text-xs sm:text-sm w-full min-w-[400px]\"><thead><tr class=\"bg-white/5\">"
    ++ String.join (headers.map (fun header =>
        "<th class=\"border border-white/10 px-2 sm:px-3 py-1.5 sm:py-2 text-left font-semibold text-cyan-400 whitespace-nowrap\">"
          ++ escape_html header ++ "</th>"))
    ++ "</tr></thead><tbody>"
    ++ String.join (results.map (fun row =>
        "<tr class=\"hover:bg-white/5 transition-colors\">"
          ++ String.join (headers.map (fun header =>
              "<td class=\"border border-white/10 px-2 sm:px-3 py-1.5 sm:py-2 text-slate-300 break-words max-w-[150px] sm:max-w-none\">"
                ++ format_value (rowGet row header) ++ "</td>"))
          ++ "</tr>"))
    ++ "</tbody></table></div>"

/-- `render_json_block` (`src/render.rs` lines 146-152). -/
def render_json_block (results : List RowData) : String :=
  "<code class=\"font-mono text-xs sm:text-sm bg-black/40 text-green-400 p-2 sm:p-3 rounded block whitespace-pre overflow-x-auto\">"
    ++ escape_html (prettyRows results) ++ "</code>"

/-- `render_row_list` (`src/render.rs` lines 154-159). -/
def render_row_list (results : List RowData) (tag : String) (class_name : String) : String :=
  render_list tag class_name (results.map (fun row => escape_html (compactRow row)))

/-- `render_default_rows` (`src/render.rs` lines 176-195). -/
def render_default_rows (results : List RowData) (columns : List String) : String :=
  let headers := if columns.isEmpty then columns_from_results results else columns
  "<div>"
    ++ String.join (results.map (fun row =>
        "<div>"
          ++ String.intercalate ", " (headers.map (fun header => format_value (rowGet row header)))
          ++ "</div>"))
    ++ "</div>"

/-- The column-resolution logic at the top of `render_results`
(`src/render.rs` lines 39-47), extracted so theorems can refer to it. -/
def resolvedColumns (results : List RowData) (columns : List String) : List String :=
  let display_columns := if columns.isEmpty then columns_from_results results else columns
  if display_columns.isEmpty then columns_from_results results else display_columns

/-- `render_results` (`src/render.rs` lines 33-64). -/
def render_results (results : List RowData) (columns : List String) (render_as : RenderAs) : String :=
  if results.isEmpty then "<span class=\"text-gray-400 italic\">No results</span>"
  else
    let display_columns := resolvedColumns results columns
    if display_columns.length = 1 ∧ results.length = 1 then
      render_single_value results (display_columns.headD "")
    else if display_columns.length = 1 then
      render_single_column results (display_columns.headD "") render_as
    else
      match render_as with
      | .table => render_table results display_columns
      | .json | .code => render_json_block results
      | .ul => render_row_list results "ul" "list-disc list-inside"
      | .ol => render_row_list results "ol" "list-decimal list-inside"
      | _ => render_default_rows results display_columns

/-! ## Analysis definitions

`validationSequence` lists, in order, every identifier `build_query`
passes to `sanitize_identifier`; `firstInvalid` is the first of them that
fails the identifier rule.  `claimedValidationSequence` follows the
claimed validation order word for word (primary table, selected columns,
per-join table and selected columns, where fields, order-by field),
which omits the join parent/child columns that the source also
validates.  `specSql` / `specParams` restate the specification's SQL
assembly and parameter-binding rules as total functions. -/

def firstUnsafe (l : List String) : Option String :=
  l.find? (fun s => ! is_safe_identifier s)

def validationSequence (config : QueryConfig) : List String :=
  [config.table]
    ++ config.columns
    ++ (config.joins.map (fun j => j.table :: j.columns)).flatten
    ++ (config.joins.map (fun j => [j.table, j.parent_column, j.child_column])).flatten
    ++ config.where_clauses.map (fun fv => fv.1)
    ++ (match config.order_by with
        | none => []
        | some ob => [ob.field])

def firstInvalid (config : QueryConfig) : Option String :=
  firstUnsafe (validationSequence config)

def claimedValidationSequence (config : QueryConfig) : List String :=
  [config.table]
    ++ config.columns
    ++ (config.joins.map (fun j => j.table :: j.columns)).flatten
    ++ config.where_clauses.map (fun fv => fv.1)
    ++ (match config.order_by with
        | none => []
        | some ob => [ob.field])

def claimedFirstInvalid (config : QueryConfig) : Option String :=
  firstUnsafe (claimedValidationSequence config)

def specSql (config : QueryConfig) : String :=
  let table := config.table
  let has_joins := !config.joins.isEmpty
  let qual := fun c => if has_joins then table ++ "." ++ c else c
  let select_columns :=
    (if !config.columns.isEmpty then config.columns.map qual
     else if has_joins then [table ++ ".*"]
     else ["*"])
      ++ (config.joins.map (fun j =>
            if j.columns.isEmpty then [j.table ++ ".*"]
            else j.columns.map (fun c => j.table ++ "." ++ c))).flatten
  "SELECT " ++ String.intercalate ", " select_columns ++ " FROM " ++ table
    ++ String.join (config.joins.map (fun j =>
        " " ++ j.join_type.as_sql ++ " JOIN " ++ j.table ++ " ON "
          ++ table ++ "." ++ j.parent_column ++ " = " ++ j.table ++ "." ++ j.child_column))
    ++ (if config.where_clauses.isEmpty then ""
        else " WHERE " ++ String.intercalate " AND "
          (config.where_clauses.map (fun fv => qual fv.1 ++ " = ?")))
    ++ (match config.order_by with
        | none => ""
        | some ob => " ORDER BY " ++ qual ob.field ++ " " ++ ob.direction.as_sql)
    ++ (match config.limit with
        | none => ""
        | some _ => " LIMIT ?")

def specParams (config : QueryConfig) : List SqlValue :=
  config.where_clauses.map (fun fv => SqlValue.text fv.2)
    ++ (match config.limit with
        | none => []
        | some n => [SqlValue.integer n])

def containsSpaceOrSemi (s : String) : Bool :=
  s.data.any (fun c => c == ';' || c == ' ')

def isKeywordToken (t : String) : Bool :=
  t == "where" || t == "limit" || t == "orderby"

/-- Pairs consecutive tokens `f v f v ...`, dropping a trailing unmatched
token. -/
def pairUp : List String → List (String × String)
  | a :: b :: rest => (a, b) :: pairUp rest
  | _ => []

/-- The first hyphen-delimited token of the raw input after the three
prefix characters, per the claimed reading of "table segment". -/
def rawTableSegment (s : String) : String :=
  (rustSplitHyphen ⟨s.data.drop 3⟩).headD ""

/-- The first hyphen-delimited token after the prefix of the
whitespace-trimmed input — the segment the source actually inspects. -/
def trimmedTableSegment (s : String) : String :=
  (rustSplitHyphen ⟨(rustTrim s).data.drop 3⟩).headD ""

/-! ## Theorems -/

theorem sanitize_identifier_eq (name : String) :
    sanitize_identifier name =
      match firstUnsafe [name] with
      | some n => Except.error n
      | none => Except.ok name := by
  simp only [sanitize_identifier, firstUnsafe, List.find?]
  cases h : is_safe_identifier name <;> simp

theorem mapExcept_spec {α β : Type} (f : α → Except String β) (g : α → β) (ids : α → List String)
    (h : ∀ a, f a = match firstUnsafe (ids a) with
      | some n => Except.error n
      | none => Except.ok (g a)) :
    ∀ l : List α, mapExcept f l =
      match firstUnsafe ((l.map ids).flatten) with
      | some n => Except.error n
      | none => Except.ok (l.map g)
  | [] => by simp [mapExcept, firstUnsafe]
  | a :: as => by
    have ih := mapExcept_spec f g ids h as
    simp only [mapExcept, h a, List.map_cons, List.flatten_cons, firstUnsafe,
      List.find?_append] at *
    cases hA : (ids a).find? (fun s => !is_safe_identifier s) with
    | some n => simp [hA]
    | none =>
      simp only [hA, Option.none_or]
      cases hR : ((as.map ids).flatten).find? (fun s => !is_safe_identifier s) with
      | some n => simp [hR] at ih ⊢; simp [ih]
      | none => simp [hR] at ih ⊢; simp [ih]

theorem mapExcept_spec1 {α β : Type} (f : α → Except String β) (g : α → β) (idf : α → String)
    (h : ∀ a, f a = match firstUnsafe [idf a] with
      | some n => Except.error n
      | none => Except.ok (g a)) (l : List α) :
    mapExcept f l =
      match firstUnsafe (l.map idf) with
      | some n => Except.error n
      | none => Except.ok (l.map g) := by
  have hflat : ∀ m : List α, ((m.map (fun a => [idf a])).flatten) = m.map idf := by
    intro m
    induction m with
    | nil => simp
    | cons a as ih => simp [ih]
  have := mapExcept_spec f g (fun a => [idf a]) h l
  rw [hflat l] at this
  exact this

theorem primary_select_columns_eq (table : String) (has_joins : Bool) (columns : List String) :
    primary_select_columns table has_joins columns =
      match firstUnsafe columns with
      | some n => Except.error n
      | none => Except.ok (if !columns.isEmpty then
            columns.map (fun c => if has_joins then table ++ "." ++ c else c)
          else if has_joins then [table ++ ".*"] else ["*"]) := by
  cases hC : columns.isEmpty with
  | true =>
    have h0 : columns = [] := by cases columns <;> simp_all
    subst h0
    simp only [primary_select_columns, firstUnsafe, List.find?]
    cases has_joins <;> simp
  | false =>
    simp only [primary_select_columns, hC, Bool.not_false, if_true]
    rw [mapExcept_spec1 _ (fun c => if has_joins then table ++ "." ++ c else c) (fun c => c) ?hf]
    case hf =>
      intro c
      rw [sanitize_identifier_eq]
      cases h : firstUnsafe [c] <;> simp
    simp

theorem join_select_columns_eq (joins : List JoinConfig) :
    mapExcept join_select_columns joins =
      match firstUnsafe ((joins.map (fun j => j.table :: j.columns)).flatten) with
      | some n => Except.error n
      | none => Except.ok (joins.map (fun j =>
          if j.columns.isEmpty then [j.table ++ ".*"]
          else j.columns.map (fun c => j.table ++ "." ++ c))) := by
  apply mapExcept_spec
  intro j
  simp only [join_select_columns]
  rw [sanitize_identifier_eq]
  simp only [firstUnsafe, List.find?]
  cases hs : is_safe_identifier j.table with
  | false => simp
  | true =>
    simp only [Bool.not_true, if_neg]
    cases hC : j.columns.isEmpty with
    | true =>
      have h0 : j.columns = [] := by cases h : j.columns <;> simp_all
      simp [h0, hC]
    | false =>
      simp only [hC, if_neg, Bool.false_eq_true, not_false_eq_true]
      rw [mapExcept_spec1 _ (fun c => j.table ++ "." ++ c) (fun c => c) ?hf]
      case hf =>
        intro c
        rw [sanitize_identifier_eq]
        cases h : firstUnsafe [c] <;> simp
      simp [firstUnsafe]

theorem join_clause_eq (table : String) (joins : List JoinConfig) :
    mapExcept (join_clause table) joins =
      match firstUnsafe ((joins.map (fun j => [j.table, j.parent_column, j.child_column])).flatten) with
      | some n => Except.error n
      | none => Except.ok (joins.map (fun j =>
          " " ++ j.join_type.as_sql ++ " JOIN " ++ j.table
            ++ " ON " ++ table ++ "." ++ j.parent_column ++ " = " ++ j.table ++ "." ++ j.child_column)) := by
  apply mapExcept_spec
  intro j
  simp only [join_clause]
  rw [sanitize_identifier_eq, sanitize_identifier_eq, sanitize_identifier_eq]
  simp only [firstUnsafe, List.find?]
  cases h1 : is_safe_identifier j.table with
  | false => simp
  | true =>
    cases h2 : is_safe_identifier j.parent_column with
    | false => simp
    | true =>
      cases h3 : is_safe_identifier j.child_column with
      | false => simp
      | true => simp

theorem where_conditions_eq (table : String) (has_joins : Bool)
    (where_clauses : List (String × String)) :
    where_conditions table has_joins where_clauses =
      match firstUnsafe (where_clauses.map (fun fv => fv.1)) with
      | some n => Except.error n
      | none => Except.ok (where_clauses.map (fun fv =>
          (if has_joins then table ++ "." ++ fv.1 else fv.1) ++ " = ?")) := by
  unfold where_conditions
  refine mapExcept_spec1 _
    (fun fv => (if has_joins then table ++ "." ++ fv.1 else fv.1) ++ " = ?")
    (fun fv => fv.1) ?_ where_clauses
  intro fv
  rw [sanitize_identifier_eq]
  cases h : firstUnsafe [fv.1] <;> simp

theorem order_by_sql_eq (table : String) (has_joins : Bool) (sql : String) (ob : Option OrderBy) :
    order_by_sql table has_joins sql ob =
      match firstUnsafe (match ob with | none => [] | some o => [o.field]) with
      | some n => Except.error n
      | none => Except.ok (match ob with
          | none => sql
          | some o => sql ++ " ORDER BY "
              ++ (if has_joins then table ++ "." ++ o.field else o.field)
              ++ " " ++ o.direction.as_sql) := by
  cases ob with
  | none => simp [order_by_sql, firstUnsafe]
  | some o =>
    simp only [order_by_sql]
    rw [sanitize_identifier_eq]
    cases h : firstUnsafe [o.field] <;> simp

theorem build_query_eq (config : QueryConfig) :
    build_query config =
      match firstInvalid config with
      | some n => Except.error n
      | none => Except.ok ⟨specSql config, specParams config⟩ := by
  obtain ⟨tbl, cols, wcs, lim, ob, joins⟩ := config
  simp only [build_query]
  rw [sanitize_identifier_eq tbl]
  cases hT : firstUnsafe [tbl] with
  | some n =>
    have hR : firstInvalid ⟨tbl, cols, wcs, lim, ob, joins⟩ = some n := by
      simp only [firstInvalid, validationSequence, firstUnsafe, List.find?_append] at hT ⊢
      simp [hT]
    rw [hR]
  | none =>
    simp only []
    rw [primary_select_columns_eq]
    cases hB : firstUnsafe cols with
    | some n =>
      have hR : firstInvalid ⟨tbl, cols, wcs, lim, ob, joins⟩ = some n := by
        simp only [firstInvalid, validationSequence, firstUnsafe, List.find?_append] at hT hB ⊢
        simp [hT, hB]
      rw [hR]
    | none =>
      simp only []
      rw [join_select_columns_eq]
      cases hC : firstUnsafe ((joins.map (fun j => j.table :: j.columns)).flatten) with
      | some n =>
        have hR : firstInvalid ⟨tbl, cols, wcs, lim, ob, joins⟩ = some n := by
          simp only [firstInvalid, validationSequence, firstUnsafe, List.find?_append] at hT hB hC ⊢
          simp [hT, hB, hC]
        rw [hR]
      | none =>
        simp only []
        rw [join_clause_eq]
        cases hD : firstUnsafe ((joins.map (fun j => [j.table, j.parent_column, j.child_column])).flatten) with
        | some n =>
          have hR : firstInvalid ⟨tbl, cols, wcs, lim, ob, joins⟩ = some n := by
            simp only [firstInvalid, validationSequence, firstUnsafe, List.find?_append] at hT hB hC hD ⊢
            simp [hT, hB, hC, hD]
          rw [hR]
        | none =>
          simp only []
          cases hW : wcs.isEmpty with
          | true =>
            have h0 : wcs = [] := by cases wcs <;> simp_all
            subst h0
            have hE : firstUnsafe (List.map (fun fv : String × String => fv.1) []) = none := rfl
            simp only [List.isEmpty_nil, reduceIte]
            rw [order_by_sql_eq]
            cases hF : firstUnsafe (match ob with | none => [] | some o => [o.field]) with
            | some n =>
              have hR : firstInvalid ⟨tbl, cols, [], lim, ob, joins⟩ = some n := by
                simp only [firstInvalid, validationSequence, firstUnsafe,
                  List.find?_append] at hT hB hC hD hE hF ⊢
                simp [hT, hB, hC, hD, hE, hF]
              rw [hR]
            | none =>
              have hR : firstInvalid ⟨tbl, cols, [], lim, ob, joins⟩ = none := by
                simp only [firstInvalid, validationSequence, firstUnsafe,
                  List.find?_append] at hT hB hC hD hE hF ⊢
                simp [hT, hB, hC, hD, hE, hF]
              rw [hR]
              simp only []
              cases ob with
              | none =>
                cases lim <;>
                  simp [specSql, specParams, List.isEmpty_nil, String.append_assoc, String.append_empty]
              | some o =>
                cases lim <;>
                  simp [specSql, specParams, List.isEmpty_nil, String.append_assoc, String.append_empty]
          | false =>
            simp only [hW, Bool.false_eq_true, reduceIte]
            rw [where_conditions_eq]
            cases hE : firstUnsafe (wcs.map (fun fv => fv.1)) with
            | some n =>
              have hR : firstInvalid ⟨tbl, cols, wcs, lim, ob, joins⟩ = some n := by
                simp only [firstInvalid, validationSequence, firstUnsafe,
                  List.find?_append] at hT hB hC hD hE ⊢
                simp [hT, hB, hC, hD, hE]
              rw [hR]
            | none =>
              simp only []
              rw [order_by_sql_eq]
              cases hF : firstUnsafe (match ob with | none => [] | some o => [o.field]) with
              | some n =>
                have hR : firstInvalid ⟨tbl, cols, wcs, lim, ob, joins⟩ = some n := by
                  simp only [firstInvalid, validationSequence, firstUnsafe,
                    List.find?_append] at hT hB hC hD hE hF ⊢
                  simp [hT, hB, hC, hD, hE, hF]
                rw [hR]
              | none =>
                have hR : firstInvalid ⟨tbl, cols, wcs, lim, ob, joins⟩ = none := by
                  simp only [firstInvalid, validationSequence, firstUnsafe,
                    List.find?_append] at hT hB hC hD hE hF ⊢
                  simp [hT, hB, hC, hD, hE, hF]
                rw [hR]
                simp only []
                cases ob with
                | none =>
                  cases lim <;>
                    simp [specSql, specParams, hW, String.append_assoc, String.append_empty]
                | some o =>
                  cases lim <;>
                    simp [specSql, specParams, hW, String.append_assoc, String.append_empty]

theorem build_query_ok {config : QueryConfig} {bq : BuiltQuery}
    (h : build_query config = Except.ok bq) :
    firstInvalid config = none ∧ bq.sql = specSql config ∧ bq.params = specParams config := by
  have he := build_query_eq config
  cases hF : firstInvalid config with
  | some n => rw [hF] at he; rw [h] at he; exact absurd he (by simp)
  | none =>
    rw [hF] at he
    rw [h] at he
    have hbq : bq = ⟨specSql config, specParams config⟩ := by
      simpa using he
    simp [hbq]

theorem safe_identifier_no_space_semi {s : String}
    (h : is_safe_identifier s = true) : containsSpaceOrSemi s = false := by
  unfold is_safe_identifier at h
  unfold containsSpaceOrSemi
  cases hd : s.data with
  | nil => simp
  | cons first rest =>
    rw [hd] at h
    simp only [Bool.and_eq_true, List.all_eq_true] at h
    obtain ⟨h1, h2⟩ := h
    rw [List.any_eq_false]
    intro c hmem
    simp only [Bool.or_eq_true, beq_iff_eq, not_or]
    cases hmem with
    | head =>
      constructor
      · intro h'
        subst h'
        exact absurd h1 (by decide)
      · intro h'
        subst h'
        exact absurd h1 (by decide)
    | tail _ hmem' =>
      have hc := h2 c hmem'
      constructor
      · intro h'
        subst h'
        exact absurd hc (by decide)
      · intro h'
        subst h'
        exact absurd hc (by decide)

theorem config_with_space_or_semi_errors (config : QueryConfig)
    (h : (validationSequence config).any containsSpaceOrSemi = true) :
    ∃ name, build_query config = Except.error name := by
  have he := build_query_eq config
  cases hF : firstInvalid config with
  | some n => rw [hF] at he; exact ⟨n, he⟩
  | none =>
    exfalso
    simp only [firstInvalid, firstUnsafe, List.find?_eq_none] at hF
    simp only [List.any_eq_true] at h
    obtain ⟨x, hmem, hx⟩ := h
    have hsafe := hF x hmem
    have hsafe' : is_safe_identifier x = true := by simpa using hsafe
    have hns := safe_identifier_no_space_semi hsafe'
    rw [hns] at hx
    exact absurd hx (by simp)
theorem firstInvalid_none_all_safe {config : QueryConfig}
    (h : firstInvalid config = none) :
    ∀ s ∈ validationSequence config, is_safe_identifier s = true := by
  intro x hmem
  simp only [firstInvalid, firstUnsafe, List.find?_eq_none] at h
  have := h x hmem
  simpa using this

theorem mem_vs_table (config : QueryConfig) :
    config.table ∈ validationSequence config := by
  simp [validationSequence]

theorem mem_vs_column {config : QueryConfig} {c : String} (hc : c ∈ config.columns) :
    c ∈ validationSequence config := by
  simp [validationSequence, hc]

theorem mem_vs_join_sel {config : QueryConfig} {j : JoinConfig} {c : String}
    (hj : j ∈ config.joins) (hc : c ∈ j.table :: j.columns) :
    c ∈ validationSequence config := by
  unfold validationSequence
  simp only [List.mem_append]
  refine Or.inl (Or.inl (Or.inl (Or.inr ?_)))
  rw [List.mem_flatten]
  exact ⟨j.table :: j.columns, List.mem_map.mpr ⟨j, hj, rfl⟩, hc⟩

theorem mem_vs_join_on {config : QueryConfig} {j : JoinConfig} {c : String}
    (hj : j ∈ config.joins) (hc : c ∈ [j.table, j.parent_column, j.child_column]) :
    c ∈ validationSequence config := by
  unfold validationSequence
  simp only [List.mem_append]
  refine Or.inl (Or.inl (Or.inr ?_))
  rw [List.mem_flatten]
  exact ⟨[j.table, j.parent_column, j.child_column], List.mem_map.mpr ⟨j, hj, rfl⟩, hc⟩

theorem mem_vs_where {config : QueryConfig} {fv : String × String}
    (hfv : fv ∈ config.where_clauses) :
    fv.1 ∈ validationSequence config := by
  unfold validationSequence
  simp only [List.mem_append]
  exact Or.inl (Or.inr (List.mem_map.mpr ⟨fv, hfv, rfl⟩))

theorem mem_vs_order {config : QueryConfig} {ob : OrderBy}
    (hob : config.order_by = some ob) :
    ob.field ∈ validationSequence config := by
  unfold validationSequence
  simp only [List.mem_append]
  exact Or.inr (by simp [hob])

/-- Claim C1: whenever `build_query` succeeds, every identifier embedded in
the produced SQL (primary table, selected columns, join tables, join
columns, join parent/child columns, where fields, order-by field)
satisfies the identifier rule, and any config in which one of these
identifiers contains a semicolon or a space makes `build_query` return
`InvalidIdentifier`. -/
theorem C1_all_embedded_identifiers_safe :
    (∀ (config : QueryConfig) (bq : BuiltQuery), build_query config = Except.ok bq →
      is_safe_identifier config.table = true ∧
      (∀ c ∈ config.columns, is_safe_identifier c = true) ∧
      (∀ j ∈ config.joins, is_safe_identifier j.table = true ∧
        (∀ c ∈ j.columns, is_safe_identifier c = true) ∧
        is_safe_identifier j.parent_column = true ∧
        is_safe_identifier j.child_column = true) ∧
      (∀ fv ∈ config.where_clauses, is_safe_identifier fv.1 = true) ∧
      (∀ ob, config.order_by = some ob → is_safe_identifier ob.field = true)) ∧
    (∀ config : QueryConfig, (validationSequence config).any containsSpaceOrSemi = true →
      ∃ name, build_query config = Except.error name) := by
  constructor
  · intro config bq h
    have hall := firstInvalid_none_all_safe (build_query_ok h).1
    refine ⟨hall config.table (mem_vs_table config), ?_, ?_, ?_, ?_⟩
    · intro c hc
      exact hall c (mem_vs_column hc)
    · intro j hj
      refine ⟨hall j.table (mem_vs_join_sel hj (by simp)), ?_, ?_, ?_⟩
      · intro c hc
        exact hall c (mem_vs_join_sel hj (by simp [hc]))
      · exact hall j.parent_column (mem_vs_join_on hj (by simp))
      · exact hall j.child_column (mem_vs_join_on hj (by simp))
    · intro fv hfv
      exact hall fv.1 (mem_vs_where hfv)
    · intro ob hob
      exact hall ob.field (mem_vs_order hob)
  · exact config_with_space_or_semi_errors

theorem C1_witness :
    is_safe_identifier "users" = true ∧
    (∃ name, build_query ⟨"bad;tbl", [], [], none, none, []⟩ = Except.error name) :=
  ⟨(C1_all_embedded_identifiers_safe.1 ⟨"users", [], [], none, none, []⟩
      ⟨"SELECT * FROM users", []⟩ rfl).1,
    C1_all_embedded_identifiers_safe.2 ⟨"bad;tbl", [], [], none, none, []⟩ (by decide)⟩

/-- Claim C2: on success the params list is exactly the where-clause
values bound as text, in clause order, followed by the limit bound as an
integer when a limit is present; its length is the number of where
clauses plus one-if-limit; the spec example
`where=[(a,1),(b,2)], limit=10` yields params `[text 1, text 2, int 10]`
in that order. -/
theorem C2_params_binding :
    (∀ (config : QueryConfig) (bq : BuiltQuery), build_query config = Except.ok bq →
      bq.params = config.where_clauses.map (fun fv => SqlValue.text fv.2)
          ++ (match config.limit with | none => [] | some n => [SqlValue.integer n]) ∧
      bq.params.length = config.where_clauses.length
          + (match config.limit with | none => 0 | some _ => 1)) ∧
    (∃ bq, build_query ⟨"t", [], [("a","1"),("b","2")], some 10, none, []⟩ = Except.ok bq ∧
      bq.params = [SqlValue.text "1", SqlValue.text "2", SqlValue.integer 10]) := by
  constructor
  · intro config bq h
    have hp := (build_query_ok h).2.2
    unfold specParams at hp
    refine ⟨hp, ?_⟩
    rw [hp]
    cases config.limit <;> simp
  · exact ⟨⟨"SELECT * FROM t WHERE a = ? AND b = ? LIMIT ?",
      [SqlValue.text "1", SqlValue.text "2", SqlValue.integer 10]⟩, rfl, rfl⟩

theorem C2_witness :
    ([SqlValue.text "1", SqlValue.text "2", SqlValue.integer 10] : List SqlValue)
        = ([("a","1"),("b","2")] : List (String × String)).map (fun fv => SqlValue.text fv.2)
          ++ (match (some 10 : Option Int) with | none => [] | some n => [SqlValue.integer n]) ∧
    ([SqlValue.text "1", SqlValue.text "2", SqlValue.integer 10] : List SqlValue).length
        = ([("a","1"),("b","2")] : List (String × String)).length
          + (match (some 10 : Option Int) with | none => 0 | some _ => 1) :=
  C2_params_binding.1 ⟨"t", [], [("a","1"),("b","2")], some 10, none, []⟩
    ⟨"SELECT * FROM t WHERE a = ? AND b = ? LIMIT ?",
      [SqlValue.text "1", SqlValue.text "2", SqlValue.integer 10]⟩ rfl

/-- Claim C4, counterexample: the claimed validation order (primary
table, selected columns, per-join table and selected columns, where
fields, order-by field) omits the join parent/child columns, which the
source also validates.  In this config every identifier of the claimed
sequence is valid, yet `build_query` fails with the join parent column
`"bad col"`. -/
theorem C4_counterexample :
    claimedFirstInvalid ⟨"t", ["c"], [], none, none,
        [⟨"j", "bad col", "id", [], JoinType.inner⟩]⟩ = none ∧
    build_query ⟨"t", ["c"], [], none, none,
        [⟨"j", "bad col", "id", [], JoinType.inner⟩]⟩ = Except.error "bad col" :=
  ⟨rfl, rfl⟩

/-- Claim C4, amended: `build_query` validates identifiers in the order
of `validationSequence` (primary table, selected columns, per-join table
and selected columns, then per-join table, parent column and child
column, then where fields, then the order-by field) and returns
`InvalidIdentifier` carrying the first identifier in that order that
fails validation, producing no SQL; when none fails it succeeds. -/
theorem C4_first_invalid_aborts (config : QueryConfig) :
    (∀ name, firstInvalid config = some name → build_query config = Except.error name) ∧
    (firstInvalid config = none → ∃ bq, build_query config = Except.ok bq) := by
  have h := build_query_eq config
  constructor
  · intro name hn
    rw [hn] at h
    exact h
  · intro hn
    rw [hn] at h
    exact ⟨_, h⟩

theorem C4_witness :
    build_query ⟨"t", ["ok"], [], none, none, [⟨"j", "bad col", "id", [], JoinType.left⟩]⟩
      = Except.error "bad col" :=
  (C4_first_invalid_aborts ⟨"t", ["ok"], [], none, none,
    [⟨"j", "bad col", "id", [], JoinType.left⟩]⟩).1 "bad col" rfl

/-- Claim C8: on success the SQL equals `specSql`, the spec-side
assembly in which, when joins are present, every column reference is
table-qualified, an empty primary column list emits `table.*` and an
empty join column list emits `joinTable.*`, while without joins
references are unqualified and the default is bare `*`. -/
theorem C8_sql_qualification :
    ∀ (config : QueryConfig) (bq : BuiltQuery), build_query config = Except.ok bq →
      bq.sql = specSql config :=
  fun _ _ h => (build_query_ok h).2.1

theorem C8_witness :
    ("SELECT users.name, posts.title FROM users LEFT JOIN posts ON users.id = posts.user_id WHERE users.id = ? ORDER BY users.name ASC LIMIT ?" : String)
      = specSql ⟨"users", ["name"], [("id","1")], some 5, some ⟨"name", OrderDirection.asc⟩,
          [⟨"posts", "id", "user_id", ["title"], JoinType.left⟩]⟩ :=
  C8_sql_qualification
    ⟨"users", ["name"], [("id","1")], some 5, some ⟨"name", OrderDirection.asc⟩,
      [⟨"posts", "id", "user_id", ["title"], JoinType.left⟩]⟩
    ⟨"SELECT users.name, posts.title FROM users LEFT JOIN posts ON users.id = posts.user_id WHERE users.id = ? ORDER BY users.name ASC LIMIT ?",
      [SqlValue.text "1", SqlValue.integer 5]⟩ rfl

theorem pairUpV_eq (a : String) (ts : List String) :
    (match ts with
     | [] => ([] : List (String × String))
     | v :: rest => (a, v) :: pairUp rest) = pairUp (a :: ts) := by
  cases ts <;> rfl

theorem foldl_parseStep_where (ts : List String) :
    ∀ (cfg : QueryConfig) (cur : String),
      (∀ t ∈ ts, isKeywordToken t = false) →
      (∃ st' cur', List.foldl parseStep (cfg, ParserState.whereField, cur) ts
          = ({cfg with where_clauses := cfg.where_clauses ++ pairUp ts}, st', cur')) ∧
      (∃ st' cur', List.foldl parseStep (cfg, ParserState.whereValue, cur) ts
          = ({cfg with where_clauses := cfg.where_clauses
                ++ (match ts with
                    | [] => []
                    | v :: rest => (cur, v) :: pairUp rest)}, st', cur')) := by
  induction ts with
  | nil =>
    intro cfg cur _
    constructor
    · exact ⟨ParserState.whereField, cur, by simp [pairUp]⟩
    · exact ⟨ParserState.whereValue, cur, by simp⟩
  | cons a rest ih =>
    intro cfg cur h
    have ha := h a (List.mem_cons_self a rest)
    have hrest : ∀ t ∈ rest, isKeywordToken t = false :=
      fun t ht => h t (List.mem_cons_of_mem a ht)
    simp only [isKeywordToken, Bool.or_eq_false_iff, beq_eq_false_iff_ne, ne_eq] at ha
    obtain ⟨⟨h1, h2⟩, h3⟩ := ha
    constructor
    · obtain ⟨st', cur', hfold⟩ := (ih cfg a hrest).2
      refine ⟨st', cur', ?_⟩
      simp only [List.foldl_cons, parseStep, h1, h2, h3, if_false, reduceIte]
      rw [hfold]
      rw [pairUpV_eq]
    · obtain ⟨st', cur', hfold⟩ :=
        (ih {cfg with where_clauses := cfg.where_clauses ++ [(cur, a)]} cur hrest).1
      refine ⟨st', cur', ?_⟩
      simp only [List.foldl_cons, parseStep, h1, h2, h3, if_false, reduceIte]
      rw [hfold]
      simp [List.append_assoc]

/-- Claim C5: the keyword tokens `where`/`limit`/`orderby` force their
state transition from every state without producing data; from the
WhereField state a run of non-keyword tokens is consumed alternately as
field then value, appending the pairs to `where_clauses` in encounter
order without repeating the keyword; and `db-t-where-a-1-b-2` parses to
where-clauses `[(a,1),(b,2)]`. -/
theorem C5_where_fsm :
    (∀ (cfg : QueryConfig) (st : ParserState) (cur : String),
       parseStep (cfg, st, cur) "where" = (cfg, ParserState.whereField, cur) ∧
       parseStep (cfg, st, cur) "limit" = (cfg, ParserState.limit, cur) ∧
       parseStep (cfg, st, cur) "orderby" = (cfg, ParserState.orderByField, cur)) ∧
    (∀ (cfg : QueryConfig) (cur : String) (ts : List String),
       (∀ t ∈ ts, isKeywordToken t = false) →
       ∃ st' cur', List.foldl parseStep (cfg, ParserState.whereField, cur) ts
         = ({cfg with where_clauses := cfg.where_clauses ++ pairUp ts}, st', cur')) ∧
    parse_class_name "db-t-where-a-1-b-2"
      = some ⟨"t", [], [("a","1"),("b","2")], none, none, []⟩ := by
  refine ⟨?_, ?_, by decide⟩
  · intro cfg st cur
    refine ⟨rfl, ?_, ?_⟩ <;> simp [parseStep]
  · intro cfg cur ts h
    exact (foldl_parseStep_where ts cfg cur h).1

theorem C5_witness :
    ∃ st' cur',
      List.foldl parseStep ((⟨"t", [], [], none, none, []⟩ : QueryConfig),
          ParserState.whereField, "") ["a", "1"]
        = (⟨"t", [], [("a","1")], none, none, []⟩, st', cur') := by
  have := C5_where_fsm.2.1 ⟨"t", [], [], none, none, []⟩ "" ["a", "1"] (by decide)
  exact this

/-- Claim C6, counterexample: in `db-t-limit-5-limit-x` the token `x` is
consumed in the Limit state (third conjunct) and fails integer parsing
(second conjunct), yet the resulting limit is not unset: it keeps the
previously parsed value 5. -/
theorem C6_counterexample :
    parse_class_name "db-t-limit-5-limit-x" = some ⟨"t", [], [], some 5, none, []⟩ ∧
    parseI64 "x" = none ∧
    (List.foldl parseStep ((⟨"t", [], [], none, none, []⟩ : QueryConfig),
        ParserState.column, "") ["limit", "5", "limit"]).2.1 = ParserState.limit :=
  ⟨by decide, rfl, rfl⟩

/-- Claim C6, amended: a non-keyword token consumed in the Limit state
raises no error; on parse failure the config (hence its limit) is left
unchanged — so the limit stays unset unless a previous limit token had
set it — and the state returns to Column either way. -/
theorem C6_limit_unparseable (cfg : QueryConfig) (cur : String) (t : String)
    (hk : isKeywordToken t = false) :
    (parseI64 t = none →
      parseStep (cfg, ParserState.limit, cur) t = (cfg, ParserState.column, cur)) ∧
    (∀ n, parseI64 t = some n →
      parseStep (cfg, ParserState.limit, cur) t
        = ({cfg with limit := some n}, ParserState.column, cur)) := by
  simp only [isKeywordToken, Bool.or_eq_false_iff, beq_eq_false_iff_ne, ne_eq] at hk
  obtain ⟨⟨h1, h2⟩, h3⟩ := hk
  constructor
  · intro hp
    simp [parseStep, h1, h2, h3, hp]
  · intro n hp
    simp [parseStep, h1, h2, h3, hp]

theorem C6_witness :
    parseStep ((⟨"t", [], [], some 5, none, []⟩ : QueryConfig), ParserState.limit, "") "x"
      = (⟨"t", [], [], some 5, none, []⟩, ParserState.column, "") :=
  (C6_limit_unparseable ⟨"t", [], [], some 5, none, []⟩ "" "x" (by decide)).1 rfl

/-- Claim C7, counterexample: the input `db-` followed by a space starts
with the prefix and its raw table segment (the space) is non-empty, yet
`parse_class_name` returns none, because the source trims the input
before splitting. -/
theorem C7_counterexample :
    rustStartsWith "db- " "db-" = true ∧ rawTableSegment "db- " ≠ "" ∧
    parse_class_name "db- " = none := by
  refine ⟨by decide, by decide, by decide⟩

theorem parse_class_name_none_iff (s : String) :
    parse_class_name s = none ↔
      (rustStartsWith s "db-" = false ∨ trimmedTableSegment s = "") := by
  unfold parse_class_name trimmedTableSegment
  cases hS : rustStartsWith s "db-" with
  | false => simp
  | true =>
    simp only [Bool.true_eq_false, false_or]
    rw [if_neg (by simp)]
    cases hP : rustSplitHyphen ⟨(rustTrim s).data.drop 3⟩ with
    | nil => simp
    | cons t rest =>
      by_cases ht : t = "" <;> simp [ht]

/-- Claim C7, amended: `parse_class_name` returns none exactly when the
input does not start with `db-` or the table segment of the
whitespace-trimmed input is empty; every other input yields a config,
and parsing is total (an `Option` is always returned, never an error). -/
theorem C7_parse_none_iff (s : String) :
    (parse_class_name s = none ↔
      (rustStartsWith s "db-" = false ∨ trimmedTableSegment s = "")) ∧
    (rustStartsWith s "db-" = true → trimmedTableSegment s ≠ "" →
      ∃ config, parse_class_name s = some config) := by
  refine ⟨parse_class_name_none_iff s, ?_⟩
  intro hS hT
  cases hp : parse_class_name s with
  | some config => exact ⟨config, rfl⟩
  | none =>
    rcases (parse_class_name_none_iff s).mp hp with h | h
    · rw [hS] at h
      exact absurd h (by simp)
    · exact absurd h hT

theorem C7_witness :
    ∃ config, parse_class_name "db-users" = some config :=
  (C7_parse_none_iff "db-users").2 (by decide) (by decide)

/-- Claim C10: `where_clauses` grows only when a non-keyword token is
consumed in the WhereValue state (so a pending where-field followed by a
keyword or by the end of input is silently discarded); in particular
`db-t-where-a` parses with no where-clauses, and in
`db-t-where-a-limit-3` the pending field `a` is dropped while the limit
is still parsed. -/
theorem C10_pending_field_discarded :
    (∀ (cfg : QueryConfig) (st : ParserState) (cur : String) (t : String),
       (parseStep (cfg, st, cur) t).1.where_clauses ≠ cfg.where_clauses →
       st = ParserState.whereValue ∧ isKeywordToken t = false ∧
       (parseStep (cfg, st, cur) t).1.where_clauses = cfg.where_clauses ++ [(cur, t)]) ∧
    parse_class_name "db-t-where-a" = some ⟨"t", [], [], none, none, []⟩ ∧
    parse_class_name "db-t-where-a-limit-3" = some ⟨"t", [], [], some 3, none, []⟩ := by
  refine ⟨?_, by decide, by decide⟩
  intro cfg st cur t hne
  by_cases h1 : t = "where"
  · exact absurd (by simp [parseStep, h1]) hne
  by_cases h2 : t = "limit"
  · exact absurd (by simp [parseStep, h1, h2]) hne
  by_cases h3 : t = "orderby"
  · exact absurd (by simp [parseStep, h1, h2, h3]) hne
  cases st with
  | column =>
    exact absurd (by simp [parseStep, h1, h2, h3]) hne
  | whereField =>
    exact absurd (by simp [parseStep, h1, h2, h3]) hne
  | whereValue =>
    refine ⟨rfl, by simp [isKeywordToken, h1, h2, h3], by simp [parseStep, h1, h2, h3]⟩
  | limit =>
    cases hp : parseI64 t
    · exact absurd (by simp [parseStep, h1, h2, h3, hp]) hne
    · exact absurd (by simp [parseStep, h1, h2, h3, hp]) hne
  | orderByField =>
    exact absurd (by simp [parseStep, h1, h2, h3]) hne
  | orderByDir =>
    cases ho : cfg.order_by
    · exact absurd (by simp [parseStep, h1, h2, h3, ho]) hne
    · exact absurd (by
        by_cases ha : t = "asc" <;> by_cases hd : t = "desc" <;>
          simp [parseStep, h1, h2, h3, ho, ha, hd]) hne

theorem C10_witness :
    ParserState.whereValue = ParserState.whereValue ∧ isKeywordToken "1" = false ∧
    (parseStep ((⟨"t", [], [], none, none, []⟩ : QueryConfig),
        ParserState.whereValue, "a") "1").1.where_clauses = [] ++ [("a", "1")] :=
  C10_pending_field_discarded.1 ⟨"t", [], [], none, none, []⟩
    ParserState.whereValue "a" "1" (by decide)

/-- Claim C3 (code bug): in the single-column Json/Code path each string
value is HTML-escaped twice, not exactly once: `format_value` escapes the
value, and `render_single_column` escapes the pretty-printed JSON array
of the already-escaped values again, so the value `a&b` reaches the
output as `&quot;a&amp;amp;b&quot;`.  The second conjunct records that
the double application differs from the single one. -/
theorem C3_single_column_json_double_escapes :
    render_results [[("c", JValue.str "a&b")], [("c", JValue.str "x")]] ["c"] RenderAs.json
      = "<code class=\"font-mono text-xs sm:text-sm bg-black/40 text-green-400 p-2 sm:p-3 rounded block overflow-x-auto\">"
        ++ escape_html (prettyStringArray [escape_html "a&b", escape_html "x"]) ++ "</code>" ∧
    escape_html (escape_html "a&b") ≠ escape_html "a&b" :=
  ⟨rfl, by decide⟩

/-- Claim C9: with exactly one resolved column and exactly one row,
`render_results` returns the span-wrapped formatted value of that single
cell, identically for every requested display mode. -/
theorem C9_scalar_shortcut :
    ∀ (results : List RowData) (columns : List String) (mode mode' : RenderAs),
      results.length = 1 → (resolvedColumns results columns).length = 1 →
      render_results results columns mode
        = "<span>" ++ format_value (rowGet (results.headD [])
            ((resolvedColumns results columns).headD "")) ++ "</span>" ∧
      render_results results columns mode = render_results results columns mode' := by
  intro results columns mode mode' hr hc
  have hne : results.isEmpty = false := by
    cases results with
    | nil => simp at hr
    | cons a as => rfl
  have key : ∀ m : RenderAs, render_results results columns m
      = "<span>" ++ format_value (rowGet (results.headD [])
          ((resolvedColumns results columns).headD "")) ++ "</span>" := by
    intro m
    simp only [render_results]
    rw [if_neg (by simp [hne]), if_pos ⟨hc, hr⟩]
    rfl
  exact ⟨key mode, (key mode).trans (key mode').symm⟩

theorem C9_witness :
    (render_results [[("x", JValue.str "v")]] [] RenderAs.table
        = "<span>" ++ format_value (rowGet (([[("x", JValue.str "v")]] : List RowData).headD [])
            ((resolvedColumns [[("x", JValue.str "v")]] []).headD "")) ++ "</span>") ∧
    render_results [[("x", JValue.str "v")]] [] RenderAs.table
      = render_results [[("x", JValue.str "v")]] [] RenderAs.json :=
  C9_scalar_shortcut [[("x", JValue.str "v")]] [] RenderAs.table RenderAs.json rfl rfl
